import Mathlib

/-!
Verification of the `chop` stochastic optimizers (`chop/stochastic.py`)
against their natural-language specification.

Parameters and gradients are modelled as rational-valued tensors indexed by
an arbitrary (finite, where sums are needed) index type: `Tensor ι := ι → ℚ`.
The `unsqueeze`/`squeeze` calls in the source are shape adapters and are
identities in this model.  Python floats are modelled as exact rationals; on
every concrete trace checked below the float computation is exact (all values
are dyadic rationals well inside double range), so the rational model agrees
with the float one.  A raised exception is modelled by `Option.none` /
a `none`-valued result.
-/

set_option autoImplicit false

namespace ChopStochastic

/-- A tensor: a fixed-shape numeric array, modelled as a function from its
index set to the rationals. -/
abbrev Tensor (ι : Type) := ι → ℚ

/-- `EPS = np.finfo(np.float32).eps`, i.e. machine epsilon for single
precision, which is exactly `2 ^ (-23)` (source line 19). -/
def EPS : ℚ := 1 / 2 ^ 23

/-- Gradient-normalization mode for `normalize_gradient` (source lines
94-106).  The source also has modes `'Linf'` and `'L2'` (division by the max
absolute entry resp. the Euclidean norm); they are exercised by no claim and
are not modelled (the `'L2'` mode would need real square roots). -/
inductive NormMode
  | nm_none
  | nm_sign
deriving DecidableEq

/-- `normalize_gradient` (source lines 94-106) for the modelled modes:
`'none'` is the identity, `'sign'` is the elementwise sign (`torch.sign`,
with `sign 0 = 0`). -/
def normalize_gradient {ι : Type} (grad : Tensor ι) (mode : NormMode) : Tensor ι :=
  match mode with
  | .nm_none => grad
  | .nm_sign => fun i => if 0 < grad i then 1 else if grad i < 0 then -1 else 0

/-! ### Backtracking line search (source lines 22-91) -/

/-- Return value of `backtracking_step_size`: the accepted step size, the
updated Lipschitz estimate, the objective value and gradient at the new
point, plus whether the `RuntimeWarning` for exhausted iterations was
emitted (the warning is non-fatal: a result is returned regardless). -/
structure LSResult (ι : Type) where
  step_size_t : ℚ
  lipschitz_t : ℚ
  f_next : ℚ
  grad_next : Tensor ι
  warned : Bool

/-- One trial of the backtracking loop body (source lines 72-81): given the
current Lipschitz estimate `L`, returns the trial step size, the
sufficient-decrease right-hand side `rhs`, and `f_grad` evaluated at
`x + step_size_t * update_direction`. -/
def btTrial {ι : Type} (f_grad : Tensor ι → ℚ × Tensor ι) (x update_direction : Tensor ι)
    (certificate max_step_size norm_update_direction L : ℚ) : ℚ × ℚ × (ℚ × Tensor ι) :=
  let s0 := certificate / (norm_update_direction * L)
  let s := if s0 < max_step_size then s0 else max_step_size
  let rhs :=
    if s0 < max_step_size then -(1/2) * s0 * certificate
    else -s * certificate + (1/2) * s ^ 2 * L * norm_update_direction
  (s, rhs, f_grad (fun i => x i + s * update_direction i))

/-- The sufficient-decrease acceptance test of one trial (source line 82):
`f_next - f_t <= rhs + EPS`. -/
abbrev btAccept {ι : Type} (f_grad : Tensor ι → ℚ × Tensor ι) (x update_direction : Tensor ι)
    (f_t certificate max_step_size norm_update_direction L : ℚ) : Prop :=
  (btTrial f_grad x update_direction certificate max_step_size norm_update_direction L).2.2.1 - f_t ≤
    (btTrial f_grad x update_direction certificate max_step_size norm_update_direction L).2.1 + EPS

/-- The `for`/`else` trial loop of `backtracking_step_size` (source lines
71-90), by fuel (the number of remaining iterations; the routine enters with
`max_ls_iter = 100`).  On acceptance the trial values are returned with the
current estimate; after the last trial fails, the estimate is doubled once
more, the warning is emitted, and the last trial values are returned.  The
fuel-`0` entry case is unreachable from `backtracking_step_size` (a zero
iteration budget would fault on unbound locals in Python). -/
def btLoop {ι : Type} (f_grad : Tensor ι → ℚ × Tensor ι) (x update_direction : Tensor ι)
    (f_t certificate max_step_size norm_update_direction : ℚ) :
    ℕ → ℚ → LSResult ι
  | 0, L => ⟨0, L, 0, fun _ => 0, true⟩
  | n+1, L =>
    let t := btTrial f_grad x update_direction certificate max_step_size norm_update_direction L
    if btAccept f_grad x update_direction f_t certificate max_step_size norm_update_direction L then
      ⟨t.1, L, t.2.2.1, t.2.2.2, false⟩
    else if n = 0 then
      ⟨t.1, L * 2, t.2.2.1, t.2.2.2, true⟩
    else
      btLoop f_grad x update_direction f_t certificate max_step_size norm_update_direction n (L * 2)

/-- The estimate tightening performed before the trial loop when the previous
objective value is available (source lines 68-70, `ratio_decrease = 0.9`):
`L := max(min(certificate² / (2 (old_f_t - f_t) ‖d‖²), L), 0.9 L)`. -/
def lipschitzInit (f_t : ℚ) (old_f_t : Option ℚ)
    (certificate lipschitz_t norm_update_direction : ℚ) : ℚ :=
  match old_f_t with
  | some o =>
      max (min (certificate ^ 2 / (2 * (o - f_t) * norm_update_direction)) lipschitz_t)
        (lipschitz_t * (9/10))
  | none => lipschitz_t

/-- `backtracking_step_size` (source lines 22-91): optional tightening of the
Lipschitz estimate from the previous objective value, then the 100-trial
backtracking loop (`max_ls_iter = 100`, `ratio_increase = 2`). -/
def backtracking_step_size {ι : Type} (x : Tensor ι) (f_t : ℚ) (old_f_t : Option ℚ)
    (f_grad : Tensor ι → ℚ × Tensor ι) (certificate lipschitz_t max_step_size : ℚ)
    (update_direction : Tensor ι) (norm_update_direction : ℚ) : LSResult ι :=
  btLoop f_grad x update_direction f_t certificate max_step_size norm_update_direction 100
    (lipschitzInit f_t old_f_t certificate lipschitz_t norm_update_direction)

/-! ### Shared optimizer ingredients -/

/-- Learning-rate configuration after validation: a constant float or the
`'sublinear'` schedule tag. -/
inductive LR
  | const (q : ℚ)
  | sublinear
deriving DecidableEq

/-- The Python value passed as the `lr` argument: a float or a string (the
only two cases the constructors distinguish). -/
inductive PyLR
  | float (q : ℚ)
  | str (s : String)
deriving DecidableEq

/-- The step-size formula shared by PGD (source lines 196-199, applied to the
incremented step count), PGD-Madry (lines 287-290, incremented count) and
Frank-Wolfe (lines 514-517, pre-increment count): `1/(step+1)` under the
sublinear schedule, else the constant learning rate. -/
def stepSizeOf (lr : LR) (step : ℚ) : ℚ :=
  match lr with
  | .sublinear => 1 / (step + 1)
  | .const q => q

/-- A user-supplied prox oracle, Python signature `prox(x, step_size=None)`:
second argument `none` models an omitted / defaulted `step_size`.  Treated as
a total black box, per the oracle contract. -/
abbrev UserProx (ι : Type) := Tensor ι → Option ℚ → Tensor ι

/-- A per-parameter prox closure as stored in `self.prox`.  The call can fail
(`none`, a Python `TypeError`) when the closure's late-bound captured
variable holds `None` at call time. -/
abbrev WrappedProx (ι : Type) := Tensor ι → Option ℚ → Option (Tensor ι)

/-! ### PGD (source lines 109-205) -/

/-- `PGD.__init__`'s learning-rate validation (source lines 140-142):
`if not (type(lr) == float or lr == 'sublinear'): raise ValueError(...)`.
The raised `ValueError` is modelled by `none`.  Note that the check accepts
every float; no positivity test is performed. -/
def pgdValidateLr : PyLR → Option LR
  | .float q => some (.const q)
  | .str s => if s = "sublinear" then some .sublinear else none

/-- `PGD.__init__`'s prox wrapper construction (source lines 133-138):

    for prox_el in prox:
        if prox_el is not None:
            self.prox.append(lambda x, s=None: prox_el(x.unsqueeze(0)).squeeze())
        else:
            self.prox.append(lambda x, s=None: x)

Python closures capture variables, not values: each lambda appended in the
not-`None` branch reads `prox_el` at call time, i.e. after the loop has
finished, when `prox_el` holds the LAST element of the supplied list (and
the call faults if that last element is `None`).  The wrapper also drops its
own step-size argument and passes only the point, so the user oracle always
receives its defaulted `step_size`. -/
def pgdMakeProx {ι : Type} (prox : List (Option (UserProx ι))) : List (WrappedProx ι) :=
  let final : Option (UserProx ι) := prox.getLast?.join
  prox.map fun el =>
    match el with
    | some _ => fun x _s => final.map fun f => f x none
    | none => fun x _s => some x

/-- Immutable PGD configuration (validated at construction).  The `'L2'` and
`'Linf'` normalization modes are not modelled, see `NormMode`.  The
`momentum` argument is only range-checked when it is a float; the float case
is the one modelled. -/
structure PGDConfig where
  lr : LR
  momentum : ℚ
  normalization : NormMode

/-- Per-parameter PGD state (`self.state[p]`): step count, the EMA gradient
estimate, and the convergence certificate.  The code stores the certificate
as `torch.norm((p - new_p) / step_size)`; this model stores its square
`certificate_sq` (a rational) and exposes the stored value itself as
`pgdCertificate = Real.sqrt certificate_sq`, which determines it exactly. -/
structure PGDState (ι : Type) where
  step : ℚ
  grad_estimate : Tensor ι
  certificate_sq : ℚ

/-- The stored certificate `torch.norm((p - new_p) / step_size)` of a PGD
state (source line 202). -/
noncomputable def pgdCertificate {ι : Type} (st : PGDState ι) : ℝ :=
  Real.sqrt (st.certificate_sq : ℝ)

/-- Step count after the `state['step'] += 1` of the current update (lazily
initialized to `0` on first sight of a gradient, source lines 186-191). -/
def pgdStepCount {ι : Type} (st0 : Option (PGDState ι)) : ℚ :=
  (match st0 with | some st => st.step | none => 0) + 1

/-- The gradient-estimate buffer before the current update (zero-initialized
on first sight of a gradient, source lines 186-189). -/
def pgdGradEst0 {ι : Type} (st0 : Option (PGDState ι)) : Tensor ι :=
  match st0 with
  | some st => st.grad_estimate
  | none => fun _ => 0

/-- The EMA update `grad_estimate += (1 - momentum) * (grad - grad_estimate)`
(source line 192). -/
def pgdEma {ι : Type} (momentum : ℚ) (grad : Tensor ι) (st0 : Option (PGDState ι)) : Tensor ι :=
  fun i => pgdGradEst0 st0 i + (1 - momentum) * (grad i - pgdGradEst0 st0 i)

/-- The body of `PGD.step` for one parameter that has a (dense) gradient
(source lines 178-203): lazy state init, step increment, EMA, normalization,
step size, `new_p = self.prox[idx](p - step_size * grad_est, 1.)` — note the
constant `1.` handed to the wrapper — certificate, and commit.  `none`
models a raised exception (failing prox closure). -/
def pgdParamUpdate {ι : Type} [Fintype ι] (cfg : PGDConfig) (proxw : WrappedProx ι)
    (p grad : Tensor ι) (st0 : Option (PGDState ι)) : Option (Tensor ι × PGDState ι) :=
  let ge := pgdEma cfg.momentum grad st0
  let grad_est := normalize_gradient ge cfg.normalization
  let step_size := stepSizeOf cfg.lr (pgdStepCount st0)
  (proxw (fun i => p i - step_size * grad_est i) (some 1)).map fun new_p =>
    (new_p, ⟨pgdStepCount st0, ge, ∑ i, ((p i - new_p i) / step_size) ^ 2⟩)

/-- A registered parameter: its value buffer and the gradient attached by the
caller (`p.grad`), absent when no gradient was computed. -/
structure Param (ι : Type) where
  value : Tensor ι
  grad : Option (Tensor ι)

/-- The parameter loop of `PGD.step` (source lines 172-204): parameters with
no gradient are skipped; `idx` counts only the parameters that had a
gradient, and the prox closure is looked up at `self.prox[idx]`
(an out-of-range lookup, a Python `IndexError`, is `none`). -/
def pgdStepGo {ι : Type} [Fintype ι] (cfg : PGDConfig) (prox : List (WrappedProx ι)) :
    List (Param ι × Option (PGDState ι)) → ℕ → Option (List (Param ι × Option (PGDState ι)))
  | [], _ => some []
  | (p, st) :: rest, idx =>
    match p.grad with
    | none => (pgdStepGo cfg prox rest idx).map (fun tail => (p, st) :: tail)
    | some g =>
      match prox[idx]? with
      | none => none
      | some pw =>
        match pgdParamUpdate cfg pw p.value g st with
        | none => none
        | some (v, st1) =>
          (pgdStepGo cfg prox rest (idx + 1)).map (fun tail => (⟨v, some g⟩, some st1) :: tail)

/-- `PGD.step` (without the optional closure, which only recomputes the
loss): the parameter loop started at `idx = 0`. -/
def pgdStep {ι : Type} [Fintype ι] (cfg : PGDConfig) (prox : List (WrappedProx ι))
    (params : List (Param ι × Option (PGDState ι))) :
    Option (List (Param ι × Option (PGDState ι))) :=
  pgdStepGo cfg prox params 0

/-! ### PGD-Madry (source lines 208-297) -/

/-- A user-supplied lmo oracle:
`lmo(direction, point) -> (update_direction, max_step_size)`. -/
abbrev UserLmo (ι : Type) := Tensor ι → Tensor ι → Tensor ι × ℚ

/-- A per-parameter lmo closure as stored in `self.lmo`; fails (`none`) when
its late-bound captured variable is unbound (empty oracle list). -/
abbrev WrappedLmo (ι : Type) := Tensor ι → Tensor ι → Option (Tensor ι × ℚ)

/-- The final value of the loop variable after the PGDMadry (lines 232-240)
and S3CM (lines 346-354) wrapper loops: the last element of the list, except
that a `None` element was reassigned to a local identity function in its
iteration of the loop. -/
def lastProxEl {ι : Type} (prox : List (Option (UserProx ι))) : Option (UserProx ι) :=
  match prox.getLast? with
  | some (some f) => some f
  | some none => some (fun x _ => x)
  | none => none

/-- `PGDMadry.__init__`'s prox wrapper construction (source lines 232-240).
As in `pgdMakeProx`, the inner `_prox` closures late-bind `prox_el`, so every
wrapper calls the loop variable's final value (`lastProxEl`); unlike PGD's
wrappers, these pass their step-size argument through to the user oracle. -/
def madryMakeProx {ι : Type} (prox : List (Option (UserProx ι))) : List (WrappedProx ι) :=
  prox.map fun _ => fun x s => (lastProxEl prox).map fun f => f x s

/-- The lmo wrapper construction shared by `PGDMadry.__init__` (source lines
242-247) and `FrankWolfe.__init__` (source lines 451-456).  The `_lmo`
closures late-bind the loop variable, so every wrapper calls the LAST
user oracle of the list. -/
def makeLmoList {ι : Type} (lmo : List (UserLmo ι)) : List (WrappedLmo ι) :=
  lmo.map fun _ => fun u x => lmo.getLast?.map fun f => f u x

/-- Per-parameter PGD-Madry state: step count and (the square of) the stored
certificate, as in `PGDState`. -/
structure MadryState (ι : Type) where
  step : ℚ
  certificate_sq : ℚ

/-- The body of `PGDMadry.step` for one parameter with gradient (source lines
277-296): step increment, step size from the configured learning rate,
`lmo_res, _ = self.lmo[idx](-p.grad, p)`, `normalized_grad = lmo_res + p`,
`new_p = self.prox[idx](p + step_size * normalized_grad)` (the wrapper is
called with one argument, so the user oracle sees a defaulted step size),
certificate, and commit.  Also returns the computed step size, which the
loop writes into its local `step_size` variable. -/
def madryParamUpdate {ι : Type} [Fintype ι] (lr : LR) (pw : WrappedProx ι) (lw : WrappedLmo ι)
    (p grad : Tensor ι) (st0 : Option (MadryState ι)) :
    Option (Tensor ι × MadryState ι × ℚ) :=
  let step1 := (match st0 with | some st => st.step | none => 0) + 1
  let step_size := stepSizeOf lr step1
  (lw (fun i => -grad i) p).bind fun lmo_res =>
    let normalized_grad := fun i => lmo_res.1 i + p i
    (pw (fun i => p i + step_size * normalized_grad i) none).map fun new_p =>
      (new_p, ⟨step1, ∑ i, ((p i - new_p i) / step_size) ^ 2⟩, step_size)

/-- The parameter loop of `PGDMadry.step` (source lines 272-296).  The local
variable `step_size` starts as the value passed to `step` and is
unconditionally reassigned from the configured learning rate before each
use; the thread of that local through the loop is made explicit here. -/
def madryStepGo {ι : Type} [Fintype ι] (lr : LR) (prox : List (WrappedProx ι))
    (lmo : List (WrappedLmo ι)) :
    List (Param ι × Option (MadryState ι)) → Option ℚ → ℕ →
      Option (List (Param ι × Option (MadryState ι)))
  | [], _, _ => some []
  | (p, st) :: rest, step_size, idx =>
    match p.grad with
    | none => (madryStepGo lr prox lmo rest step_size idx).map (fun tail => (p, st) :: tail)
    | some g =>
      match lmo[idx]? with
      | none => none
      | some lw =>
        match prox[idx]? with
        | none => none
        | some pw =>
          match madryParamUpdate lr pw lw p.value g st with
          | none => none
          | some (v, st1, s) =>
            (madryStepGo lr prox lmo rest (some s) (idx + 1)).map
              (fun tail => (⟨v, some g⟩, some st1) :: tail)

/-- `PGDMadry.step(step_size=None, closure=None)` (without the loss closure):
the parameter loop started at `idx = 0`, with the local `step_size` holding
the caller-passed argument. -/
def madryStep {ι : Type} [Fintype ι] (lr : LR) (prox : List (WrappedProx ι))
    (lmo : List (WrappedLmo ι)) (step_size : Option ℚ)
    (params : List (Param ι × Option (MadryState ι))) :
    Option (List (Param ι × Option (MadryState ι))) :=
  madryStepGo lr prox lmo params step_size 0

/-! ### S3CM (source lines 300-393) -/

/-- A per-parameter S3CM prox closure: total, because the `__init__` loop
replaces `None` elements by a local identity before wrapping. -/
abbrev TotalProx (ι : Type) := Tensor ι → Option ℚ → Tensor ι

/-- `S3CM.__init__`'s wrapper construction (source lines 346-354): the two
supplied lists are iterated with `zip`, `None` entries are replaced by local
identities, and the appended lambdas late-bind `prox1_` / `prox2_`, so every
wrapper calls the final value of the corresponding loop variable
(`lastProxEl` of the zipped column); the step-size argument is passed
through.  The fallback identity in the `none` branch is unreachable: a
wrapper exists only when the zipped list is nonempty. -/
def s3cmMakeProx {ι : Type} (prox1 prox2 : List (Option (UserProx ι))) :
    List (TotalProx ι) × List (TotalProx ι) :=
  let zipped := prox1.zip prox2
  (zipped.map fun _ => fun x s =>
      match lastProxEl (zipped.map Prod.fst) with
      | some f => f x s
      | none => x,
   zipped.map fun _ => fun x s =>
      match lastProxEl (zipped.map Prod.snd) with
      | some f => f x s
      | none => x)

/-- Per-parameter S3CM state (source lines 381-385): a step counter (set to
`0` at initialization and never incremented by `S3CM.step`), the two
iterates, and the dual variable. -/
structure S3CMState (ι : Type) where
  step : ℚ
  iterate_1 : Tensor ι
  iterate_2 : Tensor ι
  dual : Tensor ι

/-- The body of `S3CM.step` for one parameter with gradient (source lines
372-392): normalize the gradient, lazily initialize
`iterate_1 = p`, `iterate_2 = prox2(p, lr)`,
`dual = (iterate_1 - iterate_2)/lr`, then
`iterate_2 := prox2(iterate_1 + lr*dual, lr)`;
`dual += (iterate_1 - iterate_2)/lr` (with the updated `iterate_2`);
`iterate_1 := prox1(iterate_2 - lr*(grad + dual), lr)` (with the updated
`dual`); and commit `p := iterate_2`. -/
def s3cmParamUpdate {ι : Type} (lr : ℚ) (mode : NormMode) (prox1 prox2 : TotalProx ι)
    (p grad : Tensor ι) (st0 : Option (S3CMState ι)) : Tensor ι × S3CMState ι :=
  let g := normalize_gradient grad mode
  let st : S3CMState ι :=
    match st0 with
    | some st => st
    | none =>
      let i1 := p
      let i2 := prox2 p (some lr)
      ⟨0, i1, i2, fun i => (i1 i - i2 i) / lr⟩
  let i2 := prox2 (fun i => st.iterate_1 i + lr * st.dual i) (some lr)
  let dual := fun i => st.dual i + (st.iterate_1 i - i2 i) / lr
  let i1 := prox1 (fun i => i2 i - lr * (g i + dual i)) (some lr)
  (i2, ⟨st.step, i1, i2, dual⟩)

/-- The parameter loop of `S3CM.step` (source lines 367-393): skip parameters
with no gradient; the two prox closures are looked up at index `idx`, which
counts only parameters that had a gradient. -/
def s3cmStepGo {ι : Type} (lr : ℚ) (mode : NormMode) (prox1 prox2 : List (TotalProx ι)) :
    List (Param ι × Option (S3CMState ι)) → ℕ →
      Option (List (Param ι × Option (S3CMState ι)))
  | [], _ => some []
  | (p, st) :: rest, idx =>
    match p.grad with
    | none => (s3cmStepGo lr mode prox1 prox2 rest idx).map (fun tail => (p, st) :: tail)
    | some g =>
      match prox1[idx]? with
      | none => none
      | some q1 =>
        match prox2[idx]? with
        | none => none
        | some q2 =>
          let r := s3cmParamUpdate lr mode q1 q2 p.value g st
          (s3cmStepGo lr mode prox1 prox2 rest (idx + 1)).map
            (fun tail => (⟨r.1, some g⟩, some r.2) :: tail)

/-- `S3CM.step` (without the loss closure). -/
def s3cmStep {ι : Type} (lr : ℚ) (mode : NormMode) (prox1 prox2 : List (TotalProx ι))
    (params : List (Param ι × Option (S3CMState ι))) :
    Option (List (Param ι × Option (S3CMState ι))) :=
  s3cmStepGo lr mode prox1 prox2 params 0

/-! ### Stochastic Frank-Wolfe (source lines 416-539) -/

/-- Immutable SFW configuration.  The adaptive momentum schedule used when
`momentum is None` (source lines 521-523, `1 - (1/(step+1))**(1/3)`) needs
real cube roots and is not modelled (no claim exercises it); likewise the
`'gradient'` normalization branch (source lines 532-534, a rescaling by a
ratio of Euclidean norms).  All claims below run with a float momentum and
`normalization='none'`, under which those branches are never entered. -/
structure FWConfig where
  lr : LR
  momentum : ℚ
  weight_decay : ℚ

/-- Per-parameter SFW state: step count, EMA gradient estimate, and the
Frank-Wolfe gap certificate `(-grad_estimate * update_direction).sum()`
(a dot product — stored exactly, no square root involved). -/
structure FWState (ι : Type) where
  step : ℚ
  grad_estimate : Tensor ι
  certificate : ℚ

/-- The body of `FrankWolfe.step` for one parameter with gradient (source
lines 502-537): weight decay, step size from the PRE-increment step count
(lines 514-517 run before the increment on line 527), step increment, EMA,
`update_direction, _ = self.lmo[idx](-grad_estimate, p)`, certificate, and
the additive commit `p += step_size * update_direction`. -/
def fwParamUpdate {ι : Type} [Fintype ι] (cfg : FWConfig) (lw : WrappedLmo ι)
    (p pgrad : Tensor ι) (st0 : Option (FWState ι)) : Option (Tensor ι × FWState ι) :=
  let grad := fun i => pgrad i + cfg.weight_decay * p i
  let step0 : ℚ := match st0 with | some st => st.step | none => 0
  let ge0 : Tensor ι := match st0 with | some st => st.grad_estimate | none => fun _ => 0
  let step_size := stepSizeOf cfg.lr step0
  let step1 := step0 + 1
  let ge1 : Tensor ι := fun i => ge0 i + (1 - cfg.momentum) * (grad i - ge0 i)
  (lw (fun i => -ge1 i) p).map fun lmo_res =>
    let update_direction := lmo_res.1
    (fun i => p i + step_size * update_direction i,
      ⟨step1, ge1, ∑ i, -ge1 i * update_direction i⟩)

/-- The parameter loop of `FrankWolfe.step` (source lines 499-538). -/
def fwStepGo {ι : Type} [Fintype ι] (cfg : FWConfig) (lmo : List (WrappedLmo ι)) :
    List (Param ι × Option (FWState ι)) → ℕ →
      Option (List (Param ι × Option (FWState ι)))
  | [], _ => some []
  | (p, st) :: rest, idx =>
    match p.grad with
    | none => (fwStepGo cfg lmo rest idx).map (fun tail => (p, st) :: tail)
    | some g =>
      match lmo[idx]? with
      | none => none
      | some lw =>
        match fwParamUpdate cfg lw p.value g st with
        | none => none
        | some (v, st1) =>
          (fwStepGo cfg lmo rest (idx + 1)).map (fun tail => (⟨v, some g⟩, some st1) :: tail)

/-- `FrankWolfe.step` (without the loss closure). -/
def fwStep {ι : Type} [Fintype ι] (cfg : FWConfig) (lmo : List (WrappedLmo ι))
    (params : List (Param ι × Option (FWState ι))) :
    Option (List (Param ι × Option (FWState ι))) :=
  fwStepGo cfg lmo params 0

/-! ### Concrete instances used in the claim checks -/

/-- The all-zeros scalar tensor. -/
def t0 : Tensor (Fin 1) := fun _ => 0

/-- The all-ones scalar tensor. -/
def t1 : Tensor (Fin 1) := fun _ => 1

/-- The objective `f(x) = 0.5 x²` with its gradient `x`, as a combined
value-and-gradient oracle over scalar tensors. -/
def quadFGrad : Tensor (Fin 1) → ℚ × Tensor (Fin 1) := fun y => (y 0 ^ 2 / 2, y)

/-- An oracle whose value is the constant `1` (and whose reported gradient is
the query point): against `f_t = 0` and a positive certificate, every
sufficient-decrease test fails. -/
def oneFGrad : Tensor (Fin 1) → ℚ × Tensor (Fin 1) := fun y => (1, y)

/-- A step-size-sensitive user prox oracle: adds the received step size to
every entry, and is the identity when the step size is defaulted.  (Real
prox operators of scaled functions depend on the step size in just this
way.) -/
def shiftProx : UserProx (Fin 1) := fun x s =>
  match s with
  | some t => fun i => x i + t
  | none => x

/-- User prox oracle adding `1` to every entry. -/
def addOneProx : UserProx (Fin 1) := fun x _ => fun i => x i + 1

/-- User prox oracle adding `2` to every entry. -/
def addTwoProx : UserProx (Fin 1) := fun x _ => fun i => x i + 2

/-- The identity user prox oracle. -/
def idUserProx {ι : Type} : UserProx ι := fun x _ => x

/-- A user lmo returning the zero direction with feasibility bound `1`. -/
def zeroLmo : UserLmo (Fin 1) := fun _ _ => (fun _ => 0, 1)

/-- PGD configuration: constant `lr = 1.0`, momentum `0.9`, `'none'`
normalization. -/
def cfgPGD1 : PGDConfig := ⟨.const 1, 9/10, .nm_none⟩

/-- SFW configuration: constant `lr = 0.1`, momentum `0.9`, zero weight
decay. -/
def cfgFW : FWConfig := ⟨.const (1/10), 9/10, 0⟩

/-! ## Helper lemmas and claim theorems -/

/-- Unfolding lemma: an accepted trial returns its values with the current
Lipschitz estimate and no warning. -/
theorem btLoop_accept {ι : Type} (f_grad : Tensor ι → ℚ × Tensor ι) (x d : Tensor ι)
    (f_t c ms nd : ℚ) (n : ℕ) (L : ℚ)
    (h : btAccept f_grad x d f_t c ms nd L) :
    btLoop f_grad x d f_t c ms nd (n+1) L =
      ⟨(btTrial f_grad x d c ms nd L).1, L, (btTrial f_grad x d c ms nd L).2.2.1,
        (btTrial f_grad x d c ms nd L).2.2.2, false⟩ := by
  simp [btLoop, h]

/-- Unfolding lemma: a rejected trial with remaining budget doubles the
Lipschitz estimate and retries. -/
theorem btLoop_reject {ι : Type} (f_grad : Tensor ι → ℚ × Tensor ι) (x d : Tensor ι)
    (f_t c ms nd : ℚ) (n : ℕ) (L : ℚ)
    (h : ¬ btAccept f_grad x d f_t c ms nd L) (hn : n ≠ 0) :
    btLoop f_grad x d f_t c ms nd (n+1) L =
      btLoop f_grad x d f_t c ms nd n (L * 2) := by
  simp [btLoop, h, hn]

/-- Unfolding lemma: when the final trial is rejected, the warning is emitted
and the last trial values are returned, with the estimate doubled one final
time by the loop body. -/
theorem btLoop_last_reject {ι : Type} (f_grad : Tensor ι → ℚ × Tensor ι) (x d : Tensor ι)
    (f_t c ms nd : ℚ) (L : ℚ)
    (h : ¬ btAccept f_grad x d f_t c ms nd L) :
    btLoop f_grad x d f_t c ms nd 1 L =
      ⟨(btTrial f_grad x d c ms nd L).1, L * 2, (btTrial f_grad x d c ms nd L).2.2.1,
        (btTrial f_grad x d c ms nd L).2.2.2, true⟩ := by
  simp [btLoop, h]

/-- If every trial of a run of the backtracking loop fails the
sufficient-decrease test (trial `k` runs at the estimate `L * 2 ^ k`), the
loop returns the values of its last trial, the estimate doubled once more,
and the warning flag set. -/
theorem btLoop_exhaust {ι : Type} (f_grad : Tensor ι → ℚ × Tensor ι) (x d : Tensor ι)
    (f_t c ms nd : ℚ) : ∀ (n : ℕ) (L : ℚ),
    (∀ k, k < n + 1 → ¬ btAccept f_grad x d f_t c ms nd (L * 2 ^ k)) →
    btLoop f_grad x d f_t c ms nd (n + 1) L =
      ⟨(btTrial f_grad x d c ms nd (L * 2 ^ n)).1, L * 2 ^ (n + 1),
        (btTrial f_grad x d c ms nd (L * 2 ^ n)).2.2.1,
        (btTrial f_grad x d c ms nd (L * 2 ^ n)).2.2.2, true⟩
  | 0, L, h => by
    have h0 : ¬ btAccept f_grad x d f_t c ms nd L := by
      have := h 0 (by norm_num)
      simpa using this
    rw [btLoop_last_reject _ _ _ _ _ _ _ _ h0]
    norm_num
  | n+1, L, h => by
    have h0 : ¬ btAccept f_grad x d f_t c ms nd L := by
      have := h 0 (by omega)
      simpa using this
    rw [btLoop_reject _ _ _ _ _ _ _ _ _ h0 (by omega)]
    have hrec := btLoop_exhaust f_grad x d f_t c ms nd n (L * 2) (by
      intro k hk
      have := h (k + 1) (by omega)
      have heq : L * 2 ^ (k + 1) = L * 2 * 2 ^ k := by ring
      rwa [heq] at this)
    rw [hrec]
    have e1 : L * 2 * 2 ^ n = L * 2 ^ (n + 1) := by ring
    have e2 : L * 2 * 2 ^ (n + 1) = L * 2 ^ (n + 1 + 1) := by ring
    rw [e1, e2]

/-- C5 counterexample: constructing PGD with `lr = -1.0` does not raise —
the validation accepts every float (the claim predicted a configuration
error at this input). -/
theorem C5_counterexample :
    pgdValidateLr (.float (-1)) = some (.const (-1)) ∧
    pgdValidateLr (.float (-1)) ≠ none := by
  exact ⟨rfl, by simp [pgdValidateLr]⟩

/-- C5 (amended): `PGD.__init__` validates only that the learning rate is a
float or the tag `'sublinear'`; every float — positive or not — is accepted
(so `lr = -1.0` raises nothing), and every other string raises the
`ValueError`. -/
theorem C5_amended :
    (∀ q : ℚ, pgdValidateLr (.float q) = some (.const q)) ∧
    pgdValidateLr (.str "sublinear") = some .sublinear ∧
    (∀ s : String, s ≠ "sublinear" → pgdValidateLr (.str s) = none) := by
  refine ⟨fun q => rfl, by simp [pgdValidateLr], fun s hs => ?_⟩
  simp [pgdValidateLr, hs]

/-- Witness for C5's `C5_amended` at concrete inputs. -/
theorem C5_amended_witness :
    pgdValidateLr (.float (-1)) = some (.const (-1)) ∧
    ("momentum" : String) ≠ "sublinear" ∧
    pgdValidateLr (.str "momentum") = none :=
  ⟨C5_amended.1 (-1), by decide, C5_amended.2.2 "momentum" (by decide)⟩

/-- Helper for C10: the loop of `PGDMadry.step` gives the same result for any
two values of the threaded `step_size` local, since every use is preceded by
an unconditional reassignment. -/
theorem madryStepGo_stepsize_irrelevant {ι : Type} [Fintype ι] (lr : LR)
    (prox : List (WrappedProx ι)) (lmo : List (WrappedLmo ι)) :
    ∀ (params : List (Param ι × Option (MadryState ι))) (a b : Option ℚ) (idx : ℕ),
      madryStepGo lr prox lmo params a idx = madryStepGo lr prox lmo params b idx
  | [], _, _, _ => rfl
  | (p, st) :: rest, a, b, idx => by
    unfold madryStepGo
    cases hg : p.grad with
    | none =>
      simp only [hg]
      rw [madryStepGo_stepsize_irrelevant lr prox lmo rest a b idx]
    | some g =>
      simp only [hg]

/-- C10: the `step_size` argument of `PGDMadry.step` has no effect: two runs
that differ only in the passed step size (including passing `None`) produce
identical parameter values, state, and certificates, because the local is
unconditionally overwritten from the configured learning rate before every
use. -/
theorem madry_step_size_argument_unused {ι : Type} [Fintype ι] (lr : LR)
    (prox : List (WrappedProx ι)) (lmo : List (WrappedLmo ι)) (a b : Option ℚ)
    (params : List (Param ι × Option (MadryState ι))) :
    madryStep lr prox lmo a params = madryStep lr prox lmo b params :=
  madryStepGo_stepsize_irrelevant lr prox lmo params a b 0

/-- C7: the SFW EMA trace.  With momentum `0.9` (EMA weight `0.1`), zero
weight decay, and scalar gradients `1, 2, 3` fed to three successive steps,
`grad_estimate` is exactly `0.1`, `0.29`, `0.561` after steps 1, 2, 3 (hence
within the claimed `1e-6`); the step counter advances `1, 2, 3` and the
certificate against the zero lmo direction is `0`. -/
theorem fw_ema_trace :
    fwStep cfgFW (makeLmoList [zeroLmo]) [(⟨t0, some t1⟩, none)] =
      some [(⟨t0, some t1⟩, some ⟨1, fun _ => 1/10, 0⟩)] ∧
    fwStep cfgFW (makeLmoList [zeroLmo]) [(⟨t0, some fun _ => 2⟩, some ⟨1, fun _ => 1/10, 0⟩)] =
      some [(⟨t0, some fun _ => 2⟩, some ⟨2, fun _ => 29/100, 0⟩)] ∧
    fwStep cfgFW (makeLmoList [zeroLmo]) [(⟨t0, some fun _ => 3⟩, some ⟨2, fun _ => 29/100, 0⟩)] =
      some [(⟨t0, some fun _ => 3⟩, some ⟨3, fun _ => 561/1000, 0⟩)] := by
  refine ⟨?_, ?_, ?_⟩ <;>
    norm_num [fwStep, fwStepGo, fwParamUpdate, makeLmoList, zeroLmo, cfgFW, t0, t1,
      stepSizeOf, List.getLast?, Param.mk.injEq, FWState.mk.injEq] <;>
    funext i <;> norm_num [t0]

/-- C3 counterexample: S3CM with both prox operators the identity, parameter
`0`, constant gradient `1` and `lr = 1`: the first `step` call leaves the
parameter at `0`, not at the claimed `0 - 1*1 = -1` (a difference of `1`,
far above the claimed `1e-6` tolerance). -/
theorem s3cm_first_step_counterexample :
    (s3cmStep 1 .nm_none (s3cmMakeProx [some idUserProx] [some idUserProx]).1
        (s3cmMakeProx [some idUserProx] [some idUserProx]).2 [(⟨t0, some t1⟩, none)]).map
      (fun l => l.map (fun pr => pr.1.value 0)) = some [0] ∧
    ((0 : ℚ) ≠ 0 - 1 * 1) := by
  refine ⟨?_, by norm_num⟩
  norm_num [s3cmStep, s3cmStepGo, s3cmParamUpdate, s3cmMakeProx, lastProxEl, idUserProx,
    normalize_gradient, t0, t1, List.getLast?]

/-- C3 (amended): with both prox operators equal to the identity and constant
gradient `g`, `S3CM.step` performs gradient descent with a one-step lag: the
FIRST step commits the (unchanged) pre-gradient iterate, and every step taken
from a state satisfying the resulting invariant (`dual = 0`,
`iterate_1 = x - lr*g`) moves the parameter from `x` to exactly `x - lr*g`
and re-establishes that invariant. -/
theorem s3cm_identity_prox_lagged_descent {ι : Type} (q1 q2 : TotalProx ι)
    (hq1 : ∀ x s, q1 x s = x) (hq2 : ∀ x s, q2 x s = x) (g : Tensor ι) (lr : ℚ) :
    (∀ p : Tensor ι,
      s3cmParamUpdate lr .nm_none q1 q2 p g none =
        (p, ⟨0, fun i => p i - lr * g i, p, fun _ => 0⟩)) ∧
    (∀ (x : Tensor ι) (st : S3CMState ι),
      st.dual = (fun _ => 0) → st.iterate_1 = (fun i => x i - lr * g i) →
      s3cmParamUpdate lr .nm_none q1 q2 x g (some st) =
        ((fun i => x i - lr * g i),
          ⟨st.step, fun i => x i - lr * g i - lr * g i, fun i => x i - lr * g i, fun _ => 0⟩)) := by
  constructor
  · intro p
    simp only [s3cmParamUpdate, normalize_gradient, hq1, hq2]
    refine Prod.ext ?_ ?_
    · funext i
      simp
    · refine S3CMState.mk.injEq .. |>.mpr ⟨rfl, ?_, ?_, ?_⟩ <;> funext i <;> simp
  · intro x st hdual h1
    simp only [s3cmParamUpdate, normalize_gradient, hq1, hq2, hdual, h1]
    refine Prod.ext ?_ ?_
    · funext i
      simp
    · refine S3CMState.mk.injEq .. |>.mpr ⟨rfl, ?_, ?_, ?_⟩ <;> funext i <;> simp

/-- Witness for C3's `s3cm_identity_prox_lagged_descent` at a concrete instance
(`p = 0`, `g = 1`, `lr = 1`, identity proxes). -/
theorem s3cm_identity_prox_lagged_descent_witness :
    (∀ x s, (idUserProx : UserProx (Fin 1)) x s = x) ∧
    s3cmParamUpdate 1 .nm_none (idUserProx : UserProx (Fin 1)) idUserProx t0 t1 none =
      (t0, ⟨0, fun i => t0 i - 1 * t1 i, t0, fun _ => 0⟩) :=
  ⟨fun _ _ => rfl,
    (s3cm_identity_prox_lagged_descent (idUserProx : UserProx (Fin 1)) idUserProx
      (fun _ _ => rfl) (fun _ _ => rfl) t1 1).1 t0⟩

/-- C1 counterexample: PGD with `lr = 1.0`, momentum `0.9`, a single scalar
parameter `0` with gradient `1`, and a step-size-sensitive prox oracle.  The
claim predicts `candidate = prox(p - step_size*g, step_size) = 0.9`; the code
commits `-0.1`, because `PGD.step` passes the constant `1.` to the wrapper
and the wrapper drops the step size entirely before calling the oracle. -/
theorem pgd_prox_step_size_counterexample :
    (pgdStep cfgPGD1 (pgdMakeProx [some shiftProx]) [(⟨t0, some t1⟩, none)]).map
      (fun l => l.map (fun pr => pr.1.value 0)) = some [-(1/10)] ∧
    shiftProx (fun _ => -(1/10)) (some 1) 0 = 9/10 ∧
    (-(1/10) : ℚ) ≠ 9/10 := by
  refine ⟨?_, by norm_num [shiftProx], by norm_num⟩
  norm_num [pgdStep, pgdStepGo, pgdParamUpdate, pgdMakeProx, cfgPGD1, shiftProx, pgdEma,
    pgdGradEst0, pgdStepCount, stepSizeOf, normalize_gradient, List.getLast?, t0, t1]

/-- C1 (amended): for every configuration and parameter state, the candidate
PGD commits is the supplied prox oracle applied to
`parameter - step_size * normalize(grad_estimate)` with the oracle's
step-size argument left at its DEFAULT: the wrapper built by `PGD.__init__`
is invoked with the constant `1.0` (not the gradient step size) and discards
even that before calling the oracle, so the candidate is independent of the
step size the claim says is passed. -/
theorem pgd_prox_gets_default_step {ι : Type} [Fintype ι] (cfg : PGDConfig) (f : UserProx ι)
    (pw : WrappedProx ι) (hpw : pgdMakeProx [some f] = [pw])
    (p grad : Tensor ι) (st0 : Option (PGDState ι)) :
    (pgdParamUpdate cfg pw p grad st0).map Prod.fst =
      some (f (fun i => p i - stepSizeOf cfg.lr (pgdStepCount st0) *
        normalize_gradient (pgdEma cfg.momentum grad st0) cfg.normalization i) none) := by
  have hw : pw = fun x _s => some (f x none) := by
    have h := hpw
    simp only [pgdMakeProx, List.getLast?, Option.join, List.map] at h
    exact (List.cons.injEq .. |>.mp h).1.symm
  subst hw
  simp [pgdParamUpdate]

/-- Witness for C1's `pgd_prox_gets_default_step` at a concrete instance. -/
theorem pgd_prox_gets_default_step_witness :
    pgdMakeProx [some shiftProx] = [fun x _s => some (shiftProx x none)] ∧
    (pgdParamUpdate cfgPGD1 (fun x _s => some (shiftProx x none)) t0 t1 none).map Prod.fst =
      some (shiftProx (fun i => t0 i - stepSizeOf cfgPGD1.lr
          (pgdStepCount (none : Option (PGDState (Fin 1)))) *
        normalize_gradient (pgdEma cfgPGD1.momentum t1 none) cfgPGD1.normalization i) none) :=
  ⟨by simp [pgdMakeProx, List.getLast?, Option.join],
    pgd_prox_gets_default_step cfgPGD1 shiftProx _
      (by simp [pgdMakeProx, List.getLast?, Option.join]) t0 t1 none⟩

/-- C2 (code bug): PGD does NOT invoke the oracle supplied at position `i`.
First run: oracles `(+1, +2)` at positions 0, 1, both scalar parameters with
zero gradients — BOTH parameters are updated with the position-1 oracle
(`0 ↦ 2`, `10 ↦ 12`), because the wrapper closures late-bind the loop
variable, which after `__init__` holds the LAST oracle; position 0's oracle
predicts `1 ≠ 2`.  Second run: oracles `(None, +2)` and the first parameter
has no gradient — the second parameter is updated with `self.prox[0]` (the
identity from the `None` entry, `10 ↦ 10`) instead of its positional oracle
(`10 ↦ 12`), because `idx` counts only parameters with gradients. -/
theorem pgd_oracle_misalignment :
    ((pgdStep cfgPGD1 (pgdMakeProx [some addOneProx, some addTwoProx])
        [(⟨t0, some t0⟩, none), (⟨fun _ => 10, some t0⟩, none)]).map
      (fun l => l.map (fun pr => pr.1.value 0)) = some [2, 12] ∧
      addOneProx t0 none 0 = 1 ∧ ((2 : ℚ) ≠ 1)) ∧
    ((pgdStep cfgPGD1 (pgdMakeProx [none, some addTwoProx])
        [(⟨t0, none⟩, none), (⟨fun _ => 10, some t0⟩, none)]).map
      (fun l => l.map (fun pr => pr.1.value 0)) = some [0, 10] ∧
      addTwoProx (fun _ => 10) none 0 = 12 ∧ ((10 : ℚ) ≠ 12)) := by
  refine ⟨⟨?_, by norm_num [addOneProx, t0], by norm_num⟩,
    ⟨?_, by norm_num [addTwoProx], by norm_num⟩⟩
  · norm_num [pgdStep, pgdStepGo, pgdParamUpdate, pgdMakeProx, cfgPGD1, addOneProx,
      addTwoProx, pgdEma, pgdGradEst0, pgdStepCount, stepSizeOf, normalize_gradient,
      List.getLast?, t0]
  · norm_num [pgdStep, pgdStepGo, pgdParamUpdate, pgdMakeProx, cfgPGD1, addTwoProx,
      pgdEma, pgdGradEst0, pgdStepCount, stepSizeOf, normalize_gradient,
      List.getLast?, t0]

/-- Helper for C4: on `f(x) = 0.5 x²` from `x = 0` in direction `1`, with
`certificate = 1`, `‖d‖² = 1`, `max_step_size = 10`, every trial with
estimate `2^k`, `k ≤ 22`, fails the sufficient-decrease test: the trial
value `2^(-2k-1)` is positive while the bound `-2^(-k-1) + 2^(-23)` is
nonpositive. -/
theorem lsQuadReject (k : ℕ) (hk : k ≤ 22) : ¬ btAccept quadFGrad t0 t1 0 1 10 1 (2 ^ k) := by
  have h1 : (1:ℚ) ≤ 2 ^ k := one_le_pow₀ (by norm_num)
  have hpos : (0:ℚ) < 2 ^ k := by positivity
  have hlt : (1:ℚ) / (1 * 2 ^ k) < 10 := by
    rw [one_mul]
    calc (1:ℚ) / 2 ^ k ≤ 1 := by rw [div_le_one hpos]; exact h1
      _ < 10 := by norm_num
  simp only [btAccept, btTrial, quadFGrad, t0, t1, EPS, if_pos hlt]
  simp only [one_mul, zero_add, mul_one, sub_zero]
  intro hcon
  have h2 : (2:ℚ) ^ (k+1) ≤ 2 ^ 23 := pow_le_pow_right₀ (by norm_num) (by omega)
  have h3 : (1:ℚ) / 2 ^ 23 ≤ 1 / 2 ^ (k+1) := by
    apply one_div_le_one_div_of_le
    · positivity
    · exact h2
  have h4 : -(1/2 : ℚ) * (1 / 2 ^ k) * 1 + 1 / 2 ^ 23 ≤ 0 := by
    have he : -(1/2 : ℚ) * (1 / 2 ^ k) * 1 = -(1 / 2 ^ (k+1)) := by
      rw [pow_succ]; ring
    rw [he]
    linarith
  have h5 : (0:ℚ) < (1 / 2 ^ k) ^ 2 / 2 := by positivity
  linarith

/-- Helper for C4: the first 23 failed trials of the quadratic example chain
the loop down from budget 100 at estimate `1` to budget 77 at estimate
`2^23`. -/
theorem lsQuadChain : ∀ t : ℕ, t ≤ 23 →
    btLoop quadFGrad t0 t1 0 1 10 1 (77 + t) (2 ^ (23 - t)) =
      btLoop quadFGrad t0 t1 0 1 10 1 77 (2 ^ 23)
  | 0, _ => rfl
  | t+1, ht => by
    have hk : 23 - (t+1) ≤ 22 := by omega
    have hshift : (77 + (t+1)) = (77 + t) + 1 := by omega
    rw [hshift, btLoop_reject _ _ _ _ _ _ _ _ _ (lsQuadReject _ hk) (by omega)]
    have he : (2:ℚ) ^ (23 - (t+1)) * 2 = 2 ^ (23 - t) := by
      rw [← pow_succ]
      congr 1
      omega
    rw [he]
    exact lsQuadChain t (by omega)

/-- Helper for C4: the 24th trial of the quadratic example, at estimate
`2^23`, satisfies the sufficient-decrease test. -/
theorem lsQuadAccept : btAccept quadFGrad t0 t1 0 1 10 1 (2 ^ 23) := by
  have hlt : (1:ℚ) / (1 * 2 ^ 23) < 10 := by norm_num
  simp only [btAccept, btTrial, quadFGrad, t0, t1, EPS, if_pos hlt]
  norm_num

/-- Helper for C4: the full loop value on the quadratic example. -/
theorem lsQuadFinal : btLoop quadFGrad t0 t1 0 1 10 1 100 1 =
    ⟨1 / 2 ^ 23, 2 ^ 23, 1 / 2 ^ 47, fun _ => 1 / 2 ^ 23, false⟩ := by
  have h0 : btLoop quadFGrad t0 t1 0 1 10 1 100 1 =
      btLoop quadFGrad t0 t1 0 1 10 1 77 (2 ^ 23) := by
    have h := lsQuadChain 23 (le_refl 23)
    norm_num at h
    exact h
  rw [h0]
  have h77 : (77 : ℕ) = 76 + 1 := rfl
  rw [h77, btLoop_accept _ _ _ _ _ _ _ _ _ lsQuadAccept]
  simp only [btTrial, quadFGrad, t0, t1]
  norm_num

/-- C4 counterexample: on `f(x) = 0.5 x²` from `x = 0`, `f_t = 0`, no
previous value, direction `1`, `certificate = 1`, `max_step_size = 10`,
`‖d‖² = 1`, initial `L = 1`, the line search REJECTS the first trial
(`step_size = 1` gives `f_next - f_t = 0.5 > -0.5 + ε`), and returns
`step_size = 2^(-23) ≠ 1` and `f_next = 2^(-47) ≠ 0.5`, contrary to the
claimed first-trial acceptance. -/
theorem line_search_first_trial_counterexample :
    ¬ btAccept quadFGrad t0 t1 0 1 10 1 1 ∧
    (backtracking_step_size t0 0 none quadFGrad 1 1 10 t1 1).step_size_t = 1 / 2 ^ 23 ∧
    (backtracking_step_size t0 0 none quadFGrad 1 1 10 t1 1).f_next = 1 / 2 ^ 47 ∧
    ((1 : ℚ) / 2 ^ 23 ≠ 1) ∧ ((1 : ℚ) / 2 ^ 47 ≠ 1 / 2) := by
  refine ⟨?_, ?_, ?_, by norm_num, by norm_num⟩
  · have h := lsQuadReject 0 (by norm_num)
    rwa [pow_zero] at h
  · simp only [backtracking_step_size, lipschitzInit, lsQuadFinal]
  · simp only [backtracking_step_size, lipschitzInit, lsQuadFinal]

/-- C4 (amended): on the claimed input the line search rejects trials
`1..23`, accepts the 24th trial (estimate `2^23`), and returns
`step_size = 2^(-23)`, Lipschitz estimate `2^23`, `f_next = 2^(-47)`, the
gradient at the accepted point, and no warning. -/
theorem line_search_quadratic_trace :
    backtracking_step_size t0 0 none quadFGrad 1 1 10 t1 1 =
      ⟨1 / 2 ^ 23, 2 ^ 23, 1 / 2 ^ 47, fun _ => 1 / 2 ^ 23, false⟩ := by
  simp only [backtracking_step_size, lipschitzInit, lsQuadFinal]

/-- C8: whenever all 100 trials fail the sufficient-decrease condition (trial
`k` runs at the tightened estimate times `2^k`), `backtracking_step_size`
still RETURNS — the warning flag is set, and the result carries the last
(100th) trial's step size, objective value and gradient, with the Lipschitz
estimate doubled once more by the final failed trial. -/
theorem line_search_exhaustion_returns {ι : Type} (f_grad : Tensor ι → ℚ × Tensor ι)
    (x d : Tensor ι) (f_t : ℚ) (old_f_t : Option ℚ) (cert lip ms nd : ℚ)
    (h : ∀ k, k < 100 →
      ¬ btAccept f_grad x d f_t cert ms nd (lipschitzInit f_t old_f_t cert lip nd * 2 ^ k)) :
    backtracking_step_size x f_t old_f_t f_grad cert lip ms d nd =
      ⟨(btTrial f_grad x d cert ms nd (lipschitzInit f_t old_f_t cert lip nd * 2 ^ 99)).1,
        lipschitzInit f_t old_f_t cert lip nd * 2 ^ 100,
        (btTrial f_grad x d cert ms nd (lipschitzInit f_t old_f_t cert lip nd * 2 ^ 99)).2.2.1,
        (btTrial f_grad x d cert ms nd (lipschitzInit f_t old_f_t cert lip nd * 2 ^ 99)).2.2.2,
        true⟩ := by
  simp only [backtracking_step_size]
  have h99 := btLoop_exhaust f_grad x d f_t cert ms nd 99
    (lipschitzInit f_t old_f_t cert lip nd) (fun k hk => h k (by omega))
  exact h99

/-- Helper for the C8 witness: with the constant-`1` objective against
`f_t = 0`, `certificate = 1`, `‖d‖² = 1`, `max_step_size = 10`, every trial
fails, at every estimate `2^k`. -/
theorem lsOneReject (k : ℕ) : ¬ btAccept oneFGrad t0 t1 0 1 10 1 (1 * 2 ^ k) := by
  have h1 : (1:ℚ) ≤ 2 ^ k := one_le_pow₀ (by norm_num)
  have hpos : (0:ℚ) < 2 ^ k := by positivity
  have hlt : (1:ℚ) / (1 * (1 * 2 ^ k)) < 10 := by
    rw [one_mul, one_mul]
    calc (1:ℚ) / 2 ^ k ≤ 1 := by rw [div_le_one hpos]; exact h1
      _ < 10 := by norm_num
  simp only [btAccept, btTrial, oneFGrad, t0, t1, EPS, if_pos hlt]
  simp only [one_mul, mul_one, sub_zero]
  intro hcon
  have hs0 : (0:ℚ) < 1 / 2 ^ k := by positivity
  have heps : (1:ℚ) / 2 ^ 23 < 1 := by norm_num
  linarith

/-- Witness for C8's `line_search_exhaustion_returns` on a concrete all-fail
input. -/
theorem line_search_exhaustion_returns_witness :
    (∀ k, k < 100 →
      ¬ btAccept oneFGrad t0 t1 0 1 10 1 (lipschitzInit 0 none 1 1 1 * 2 ^ k)) ∧
    backtracking_step_size t0 0 none oneFGrad 1 1 10 t1 1 =
      ⟨(btTrial oneFGrad t0 t1 1 10 1 (lipschitzInit 0 none 1 1 1 * 2 ^ 99)).1,
        lipschitzInit 0 none 1 1 1 * 2 ^ 100,
        (btTrial oneFGrad t0 t1 1 10 1 (lipschitzInit 0 none 1 1 1 * 2 ^ 99)).2.2.1,
        (btTrial oneFGrad t0 t1 1 10 1 (lipschitzInit 0 none 1 1 1 * 2 ^ 99)).2.2.2,
        true⟩ :=
  ⟨fun k _ => lsOneReject k,
    line_search_exhaustion_returns oneFGrad t0 t1 0 none 1 1 10 1
      (fun k _ => lsOneReject k)⟩

/-- C6: after a successful PGD parameter update whose step size is positive,
the stored certificate `‖(p - new_p)/step_size‖` is nonnegative, and it is
zero exactly when the committed candidate equals the previous parameter
value, i.e. when the parameter is a fixed point of the prox-gradient map the
code applies at the current step size. -/
theorem pgd_certificate_nonneg_zero_iff {ι : Type} [Fintype ι] (cfg : PGDConfig)
    (pw : WrappedProx ι) (p grad : Tensor ι) (st0 : Option (PGDState ι))
    (v : Tensor ι) (st1 : PGDState ι)
    (hs : 0 < stepSizeOf cfg.lr (pgdStepCount st0))
    (h : pgdParamUpdate cfg pw p grad st0 = some (v, st1)) :
    0 ≤ pgdCertificate st1 ∧ (pgdCertificate st1 = 0 ↔ v = p) := by
  simp only [pgdParamUpdate] at h
  obtain ⟨np, hnp, hpair⟩ := Option.map_eq_some'.mp h
  injection hpair with h1 h2
  subst h1
  subst h2
  set s := stepSizeOf cfg.lr (pgdStepCount st0) with hsdef
  have hS0 : (0:ℚ) ≤ ∑ i, ((p i - np i) / s) ^ 2 :=
    Finset.sum_nonneg fun i _ => sq_nonneg _
  constructor
  · exact Real.sqrt_nonneg _
  · rw [pgdCertificate]
    rw [Real.sqrt_eq_zero (by exact_mod_cast hS0)]
    rw [Rat.cast_eq_zero]
    rw [Finset.sum_eq_zero_iff_of_nonneg fun i _ => sq_nonneg _]
    constructor
    · intro hz
      funext i
      have hi := hz i (Finset.mem_univ i)
      have hdiv : (p i - np i) / s = 0 := sq_eq_zero_iff.mp hi
      rcases div_eq_zero_iff.mp hdiv with h0 | h0
      · exact (sub_eq_zero.mp h0).symm
      · exact absurd h0 (ne_of_gt hs)
    · intro hvp
      subst hvp
      intro i _
      simp

/-- Witness for C6's `pgd_certificate_nonneg_zero_iff` at a concrete instance
(identity prox wrapper, zero parameter and gradient, `lr = 1`). -/
theorem pgd_certificate_nonneg_zero_iff_witness :
    0 < stepSizeOf cfgPGD1.lr (pgdStepCount (none : Option (PGDState (Fin 1)))) ∧
    pgdParamUpdate cfgPGD1 (fun x _s => some x) t0 t0 none =
      some (t0, ⟨1, fun _ => 0, 0⟩) ∧
    (0 ≤ pgdCertificate (⟨1, fun _ => 0, 0⟩ : PGDState (Fin 1)) ∧
      (pgdCertificate (⟨1, fun _ => 0, 0⟩ : PGDState (Fin 1)) = 0 ↔ t0 = t0)) := by
  have hpos : 0 < stepSizeOf cfgPGD1.lr (pgdStepCount (none : Option (PGDState (Fin 1)))) := by
    norm_num [stepSizeOf, pgdStepCount, cfgPGD1]
  have hupd : pgdParamUpdate cfgPGD1 (fun x _s => some x) t0 t0 none =
      some (t0, ⟨1, fun _ => 0, 0⟩) := by
    norm_num [pgdParamUpdate, pgdEma, pgdGradEst0, pgdStepCount, stepSizeOf, cfgPGD1,
      normalize_gradient, t0, Prod.mk.injEq, PGDState.mk.injEq]
    refine ⟨?_, ?_⟩ <;> funext i <;> norm_num [t0, pgdEma, pgdGradEst0]
  exact ⟨hpos, hupd,
    pgd_certificate_nonneg_zero_iff cfgPGD1 (fun x _s => some x) t0 t0 none t0
      ⟨1, fun _ => 0, 0⟩ hpos hupd⟩

/-- Helper for C9 (PGD): the parameter loop leaves every entry whose
parameter has no gradient untouched, at whatever position it sits. -/
theorem pgdStepGo_skips_gradless {ι : Type} [Fintype ι] (cfg : PGDConfig)
    (prox : List (WrappedProx ι)) :
    ∀ (params : List (Param ι × Option (PGDState ι))) (idx : ℕ)
      (out : List (Param ι × Option (PGDState ι))) (k : ℕ)
      (pr : Param ι) (st : Option (PGDState ι)),
      params[k]? = some (pr, st) → pr.grad = none →
      pgdStepGo cfg prox params idx = some out → out[k]? = some (pr, st)
  | [], _, _, k, _, _, hk, _, _ => by simp at hk
  | (p, s) :: rest, idx, out, k, pr, st, hk, hg, hgo => by
    cases hpg : p.grad with
    | none =>
      simp only [pgdStepGo, hpg] at hgo
      obtain ⟨tail, htail, rfl⟩ := Option.map_eq_some'.mp hgo
      cases k with
      | zero =>
        simpa using hk
      | succ k =>
        simp only [List.getElem?_cons_succ] at hk ⊢
        exact pgdStepGo_skips_gradless cfg prox rest idx tail k pr st hk hg htail
    | some g =>
      simp only [pgdStepGo, hpg] at hgo
      cases hpw : prox[idx]? with
      | none => simp [hpw] at hgo
      | some pw =>
        simp only [hpw] at hgo
        cases hupd : pgdParamUpdate cfg pw p.value g s with
        | none => simp [hupd] at hgo
        | some vs =>
          obtain ⟨v, st1⟩ := vs
          simp only [hupd] at hgo
          obtain ⟨tail, htail, rfl⟩ := Option.map_eq_some'.mp hgo
          cases k with
          | zero =>
            simp only [List.getElem?_cons_zero, Option.some.injEq] at hk
            injection hk with h1 h2
            rw [← h1, hpg] at hg
            exact absurd hg (by simp)
          | succ k =>
            simp only [List.getElem?_cons_succ] at hk ⊢
            exact pgdStepGo_skips_gradless cfg prox rest (idx + 1) tail k pr st hk hg htail

/-- Helper for C9 (PGD-Madry): the parameter loop leaves every entry whose
parameter has no gradient untouched. -/
theorem madryStepGo_skips_gradless {ι : Type} [Fintype ι] (lr : LR)
    (prox : List (WrappedProx ι)) (lmo : List (WrappedLmo ι)) :
    ∀ (params : List (Param ι × Option (MadryState ι))) (a : Option ℚ) (idx : ℕ)
      (out : List (Param ι × Option (MadryState ι))) (k : ℕ)
      (pr : Param ι) (st : Option (MadryState ι)),
      params[k]? = some (pr, st) → pr.grad = none →
      madryStepGo lr prox lmo params a idx = some out → out[k]? = some (pr, st)
  | [], _, _, _, k, _, _, hk, _, _ => by simp at hk
  | (p, s) :: rest, a, idx, out, k, pr, st, hk, hg, hgo => by
    cases hpg : p.grad with
    | none =>
      simp only [madryStepGo, hpg] at hgo
      obtain ⟨tail, htail, rfl⟩ := Option.map_eq_some'.mp hgo
      cases k with
      | zero => simpa using hk
      | succ k =>
        simp only [List.getElem?_cons_succ] at hk ⊢
        exact madryStepGo_skips_gradless lr prox lmo rest a idx tail k pr st hk hg htail
    | some g =>
      simp only [madryStepGo, hpg] at hgo
      cases hlw : lmo[idx]? with
      | none => simp [hlw] at hgo
      | some lw =>
        simp only [hlw] at hgo
        cases hpw : prox[idx]? with
        | none => simp [hpw] at hgo
        | some pw =>
          simp only [hpw] at hgo
          cases hupd : madryParamUpdate lr pw lw p.value g s with
          | none => simp [hupd] at hgo
          | some vs =>
            obtain ⟨v, st1, s1⟩ := vs
            simp only [hupd] at hgo
            obtain ⟨tail, htail, rfl⟩ := Option.map_eq_some'.mp hgo
            cases k with
            | zero =>
              simp only [List.getElem?_cons_zero, Option.some.injEq] at hk
              injection hk with h1 h2
              rw [← h1, hpg] at hg
              exact absurd hg (by simp)
            | succ k =>
              simp only [List.getElem?_cons_succ] at hk ⊢
              exact madryStepGo_skips_gradless lr prox lmo rest (some s1) (idx + 1)
                tail k pr st hk hg htail

/-- Helper for C9 (S3CM): the parameter loop leaves every entry whose
parameter has no gradient untouched. -/
theorem s3cmStepGo_skips_gradless {ι : Type} (lr : ℚ) (mode : NormMode)
    (prox1 prox2 : List (TotalProx ι)) :
    ∀ (params : List (Param ι × Option (S3CMState ι))) (idx : ℕ)
      (out : List (Param ι × Option (S3CMState ι))) (k : ℕ)
      (pr : Param ι) (st : Option (S3CMState ι)),
      params[k]? = some (pr, st) → pr.grad = none →
      s3cmStepGo lr mode prox1 prox2 params idx = some out → out[k]? = some (pr, st)
  | [], _, _, k, _, _, hk, _, _ => by simp at hk
  | (p, s) :: rest, idx, out, k, pr, st, hk, hg, hgo => by
    cases hpg : p.grad with
    | none =>
      simp only [s3cmStepGo, hpg] at hgo
      obtain ⟨tail, htail, rfl⟩ := Option.map_eq_some'.mp hgo
      cases k with
      | zero => simpa using hk
      | succ k =>
        simp only [List.getElem?_cons_succ] at hk ⊢
        exact s3cmStepGo_skips_gradless lr mode prox1 prox2 rest idx tail k pr st hk hg htail
    | some g =>
      simp only [s3cmStepGo, hpg] at hgo
      cases hq1 : prox1[idx]? with
      | none => simp [hq1] at hgo
      | some q1 =>
        simp only [hq1] at hgo
        cases hq2 : prox2[idx]? with
        | none => simp [hq2] at hgo
        | some q2 =>
          simp only [hq2] at hgo
          obtain ⟨tail, htail, rfl⟩ := Option.map_eq_some'.mp hgo
          cases k with
          | zero =>
            simp only [List.getElem?_cons_zero, Option.some.injEq] at hk
            injection hk with h1 h2
            rw [← h1, hpg] at hg
            exact absurd hg (by simp)
          | succ k =>
            simp only [List.getElem?_cons_succ] at hk ⊢
            exact s3cmStepGo_skips_gradless lr mode prox1 prox2 rest (idx + 1)
              tail k pr st hk hg htail

/-- Helper for C9 (SFW): the parameter loop leaves every entry whose
parameter has no gradient untouched. -/
theorem fwStepGo_skips_gradless {ι : Type} [Fintype ι] (cfg : FWConfig)
    (lmo : List (WrappedLmo ι)) :
    ∀ (params : List (Param ι × Option (FWState ι))) (idx : ℕ)
      (out : List (Param ι × Option (FWState ι))) (k : ℕ)
      (pr : Param ι) (st : Option (FWState ι)),
      params[k]? = some (pr, st) → pr.grad = none →
      fwStepGo cfg lmo params idx = some out → out[k]? = some (pr, st)
  | [], _, _, k, _, _, hk, _, _ => by simp at hk
  | (p, s) :: rest, idx, out, k, pr, st, hk, hg, hgo => by
    cases hpg : p.grad with
    | none =>
      simp only [fwStepGo, hpg] at hgo
      obtain ⟨tail, htail, rfl⟩ := Option.map_eq_some'.mp hgo
      cases k with
      | zero => simpa using hk
      | succ k =>
        simp only [List.getElem?_cons_succ] at hk ⊢
        exact fwStepGo_skips_gradless cfg lmo rest idx tail k pr st hk hg htail
    | some g =>
      simp only [fwStepGo, hpg] at hgo
      cases hlw : lmo[idx]? with
      | none => simp [hlw] at hgo
      | some lw =>
        simp only [hlw] at hgo
        cases hupd : fwParamUpdate cfg lw p.value g s with
        | none => simp [hupd] at hgo
        | some vs =>
          obtain ⟨v, st1⟩ := vs
          simp only [hupd] at hgo
          obtain ⟨tail, htail, rfl⟩ := Option.map_eq_some'.mp hgo
          cases k with
          | zero =>
            simp only [List.getElem?_cons_zero, Option.some.injEq] at hk
            injection hk with h1 h2
            rw [← h1, hpg] at hg
            exact absurd hg (by simp)
          | succ k =>
            simp only [List.getElem?_cons_succ] at hk ⊢
            exact fwStepGo_skips_gradless cfg lmo rest (idx + 1) tail k pr st hk hg htail

/-- C9: for each of the four optimizers, a successful `step()` call leaves
every parameter whose gradient is absent exactly as it was: its value, its
attached (absent) gradient, and its entire per-parameter state record —
step count, gradient estimate, S3CM iterates and dual, and the stored
certificate — are unchanged at its position in the parameter list. -/
theorem step_skips_parameters_without_gradient :
    (∀ (ι : Type) [Fintype ι] (cfg : PGDConfig) (prox : List (WrappedProx ι))
      (params out : List (Param ι × Option (PGDState ι))) (k : ℕ)
      (pr : Param ι) (st : Option (PGDState ι)),
      params[k]? = some (pr, st) → pr.grad = none →
      pgdStep cfg prox params = some out → out[k]? = some (pr, st)) ∧
    (∀ (ι : Type) [Fintype ι] (lr : LR) (prox : List (WrappedProx ι))
      (lmo : List (WrappedLmo ι)) (a : Option ℚ)
      (params out : List (Param ι × Option (MadryState ι))) (k : ℕ)
      (pr : Param ι) (st : Option (MadryState ι)),
      params[k]? = some (pr, st) → pr.grad = none →
      madryStep lr prox lmo a params = some out → out[k]? = some (pr, st)) ∧
    (∀ (ι : Type) (lr : ℚ) (mode : NormMode) (prox1 prox2 : List (TotalProx ι))
      (params out : List (Param ι × Option (S3CMState ι))) (k : ℕ)
      (pr : Param ι) (st : Option (S3CMState ι)),
      params[k]? = some (pr, st) → pr.grad = none →
      s3cmStep lr mode prox1 prox2 params = some out → out[k]? = some (pr, st)) ∧
    (∀ (ι : Type) [Fintype ι] (cfg : FWConfig) (lmo : List (WrappedLmo ι))
      (params out : List (Param ι × Option (FWState ι))) (k : ℕ)
      (pr : Param ι) (st : Option (FWState ι)),
      params[k]? = some (pr, st) → pr.grad = none →
      fwStep cfg lmo params = some out → out[k]? = some (pr, st)) := by
  refine ⟨?_, ?_, ?_, ?_⟩
  · intro ι _ cfg prox params out k pr st hk hg hgo
    exact pgdStepGo_skips_gradless cfg prox params 0 out k pr st hk hg hgo
  · intro ι _ lr prox lmo a params out k pr st hk hg hgo
    exact madryStepGo_skips_gradless lr prox lmo params a 0 out k pr st hk hg hgo
  · intro ι lr mode prox1 prox2 params out k pr st hk hg hgo
    exact s3cmStepGo_skips_gradless lr mode prox1 prox2 params 0 out k pr st hk hg hgo
  · intro ι _ cfg lmo params out k pr st hk hg hgo
    exact fwStepGo_skips_gradless cfg lmo params 0 out k pr st hk hg hgo

/-- Witness for C9's `step_skips_parameters_without_gradient`: one gradient-less
scalar parameter under each optimizer. -/
theorem step_skips_parameters_without_gradient_witness :
    (⟨t1, none⟩ : Param (Fin 1)).grad = none ∧
    (pgdStep cfgPGD1 [] [(⟨t1, none⟩, none)] = some [(⟨t1, none⟩, none)] ∧
      [((⟨t1, none⟩ : Param (Fin 1)), (none : Option (PGDState (Fin 1))))][0]? =
        some (⟨t1, none⟩, none)) ∧
    (madryStep (.const 1) [] [] none [(⟨t1, none⟩, none)] = some [(⟨t1, none⟩, none)] ∧
      [((⟨t1, none⟩ : Param (Fin 1)), (none : Option (MadryState (Fin 1))))][0]? =
        some (⟨t1, none⟩, none)) ∧
    (s3cmStep 1 .nm_none [] [] [(⟨t1, none⟩, none)] = some [(⟨t1, none⟩, none)] ∧
      [((⟨t1, none⟩ : Param (Fin 1)), (none : Option (S3CMState (Fin 1))))][0]? =
        some (⟨t1, none⟩, none)) ∧
    (fwStep cfgFW [] [(⟨t1, none⟩, none)] = some [(⟨t1, none⟩, none)] ∧
      [((⟨t1, none⟩ : Param (Fin 1)), (none : Option (FWState (Fin 1))))][0]? =
        some (⟨t1, none⟩, none)) := by
  refine ⟨rfl, ⟨rfl, ?_⟩, ⟨rfl, ?_⟩, ⟨rfl, ?_⟩, ⟨rfl, ?_⟩⟩
  · exact step_skips_parameters_without_gradient.1 (Fin 1) cfgPGD1 []
      [(⟨t1, none⟩, none)] [(⟨t1, none⟩, none)] 0 ⟨t1, none⟩ none rfl rfl rfl
  · exact step_skips_parameters_without_gradient.2.1 (Fin 1) (.const 1) [] [] none
      [(⟨t1, none⟩, none)] [(⟨t1, none⟩, none)] 0 ⟨t1, none⟩ none rfl rfl rfl
  · exact step_skips_parameters_without_gradient.2.2.1 (Fin 1) 1 .nm_none [] []
      [(⟨t1, none⟩, none)] [(⟨t1, none⟩, none)] 0 ⟨t1, none⟩ none rfl rfl rfl
  · exact step_skips_parameters_without_gradient.2.2.2 (Fin 1) cfgFW []
      [(⟨t1, none⟩, none)] [(⟨t1, none⟩, none)] 0 ⟨t1, none⟩ none rfl rfl rfl

end ChopStochastic

